import Mathlib

/-!
Verification of the action registration and selection model of the
twenty-crm front end: the `ActionConfig` data model and mock action list
(`action-menu-actions.mock.tsx`), the command-menu item icon defaulting
(`CommandMenuItem.tsx`), and the abstract Action Registry
(`register` / `query`) that the specification document describes.
-/

namespace Twenty

/-- View-context tags an action can be available on
(`ActionViewType` in the source). -/
inductive ActionViewType where
  | INDEX_PAGE_SINGLE_RECORD_SELECTION
  | SHOW_PAGE
deriving DecidableEq, Repr

/-- Variant tag of an action (`ActionType` in the source). -/
inductive ActionType where
  | Standard
  | Custom
deriving DecidableEq, Repr

/-- Applicability granularity of an action (`ActionScope` in the source). -/
inductive ActionScope where
  | RecordSelection
  | SingleRecord
  | Global
deriving DecidableEq, Repr

/-- Renderable icon references used by the embedded components
(from `twenty-ui/display`). Opaque handles: the registry never
interprets them. -/
inductive IconRef where
  | IconHeart
  | IconFileExport
  | IconTrash
  | IconArrowUpRight
deriving DecidableEq, Repr

/-- The `<Action onClick={...} />` JSX element stored in each mock
entry's `component` field: an opaque renderable holding its click
callback. -/
structure ActionComponent where
  onClick : Unit → Unit

namespace SingleRecordActionKeys

/-- String value of the `SingleRecordActionKeys.ADD_TO_FAVORITES` enum
member used by the mock. -/
def ADD_TO_FAVORITES : String := "ADD_TO_FAVORITES"

def EXPORT : String := "EXPORT"

def DELETE : String := "DELETE"

end SingleRecordActionKeys

/-- An action record (`ActionConfig` in the source; §3 of the spec).
`σ` is the type of host-supplied ambient state. `shouldBeRegistered`
returns in `Except String Bool`: an `Except.error` models the
TypeScript predicate throwing. -/
structure Action (σ : Type) where
  type : ActionType
  scope : ActionScope
  key : String
  label : String
  shortLabel : String
  position : Int
  isPinned : Bool
  Icon : IconRef
  accent : Option String
  shouldBeRegistered : σ → Except String Bool
  availableOn : List ActionViewType
  component : ActionComponent

/-- Source embedding of `createMockActionMenuActions` from
`src/packages/twenty-front/src/modules/action-menu/mock/action-menu-actions.mock.tsx`:
three `ActionConfig` records (add-to-favorites, export, delete) built
around the three injected callbacks. -/
def createMockActionMenuActions {σ : Type}
    (deleteMock addToFavoritesMock exportMock : Unit → Unit) :
    List (Action σ) :=
  [ { type := ActionType.Standard
      scope := ActionScope.RecordSelection
      key := SingleRecordActionKeys.ADD_TO_FAVORITES
      label := "Add to favorites"
      shortLabel := "Add to favorites"
      position := 2
      isPinned := true
      Icon := IconRef.IconHeart
      accent := none
      shouldBeRegistered := fun _ => Except.ok true
      availableOn := [ActionViewType.INDEX_PAGE_SINGLE_RECORD_SELECTION,
                      ActionViewType.SHOW_PAGE]
      component := { onClick := addToFavoritesMock } },
    { type := ActionType.Standard
      scope := ActionScope.RecordSelection
      key := SingleRecordActionKeys.EXPORT
      label := "Export"
      shortLabel := "Export"
      position := 4
      Icon := IconRef.IconFileExport
      accent := some "default"
      isPinned := false
      shouldBeRegistered := fun _ => Except.ok true
      availableOn := [ActionViewType.SHOW_PAGE,
                      ActionViewType.INDEX_PAGE_SINGLE_RECORD_SELECTION]
      component := { onClick := exportMock } },
    { type := ActionType.Standard
      scope := ActionScope.RecordSelection
      key := SingleRecordActionKeys.DELETE
      label := "Delete"
      shortLabel := "Delete"
      position := 7
      Icon := IconRef.IconTrash
      accent := some "default"
      isPinned := true
      shouldBeRegistered := fun _ => Except.ok true
      availableOn := [ActionViewType.INDEX_PAGE_SINGLE_RECORD_SELECTION,
                      ActionViewType.SHOW_PAGE]
      component := { onClick := deleteMock } } ]

/-- Modelled from the spec: the Action Registry state (§2, §4.1) --
the registry code itself is not among the provided source files, only
its configuration data is. The registry holds the registered actions
in registration order. -/
structure Registry (σ : Type) where
  actions : List (Action σ)

/-- Keys currently held by the registry. -/
def Registry.keys {σ : Type} (r : Registry σ) : List String :=
  r.actions.map (fun a => a.key)

/-- A key is queryable when some registered action carries it. -/
def Registry.hasKey {σ : Type} (r : Registry σ) (k : String) : Bool :=
  r.actions.any (fun a => a.key == k)

/-- Modelled from the spec: registration errors (§7). -/
inductive RegistryError where
  | DuplicateKeyError
deriving DecidableEq, Repr

/-- Result of a registration call: the (possibly unchanged) registry,
an optional fatal error, and warning diagnostics (keys of actions
registered with an empty `availableOn`, §7). -/
structure RegisterResult (σ : Type) where
  registry : Registry σ
  error : Option RegistryError
  warnings : List String

/-- Modelled from the spec: `register(actions)` (§4.1, §7) -- the
registry implementation is not among the provided source files. Fails
with `DuplicateKeyError` when two actions (existing or new) share a
`key`, leaving the registry unchanged; otherwise appends the new
actions and emits a warning diagnostic for each action whose
`availableOn` is empty. -/
def register {σ : Type} (r : Registry σ) (as : List (Action σ)) :
    RegisterResult σ :=
  if ((r.actions ++ as).map (fun a => a.key)).Nodup then
    { registry := { actions := r.actions ++ as }
      error := none
      warnings := (as.filter (fun a => a.availableOn.isEmpty)).map
        (fun a => a.key) }
  else
    { registry := r
      error := some RegistryError.DuplicateKeyError
      warnings := [] }

/-- Modelled from the spec: the context a query runs in (§4.1). -/
structure QueryContext (σ : Type) where
  viewType : ActionViewType
  scope : ActionScope
  ambientState : σ

/-- Step 1 filter of `query` (§4.1): the action's `availableOn`
contains the context's view type and its `scope` matches the
context's scope. -/
def passesStaticFilter {σ : Type} (ctx : QueryContext σ) (a : Action σ) :
    Bool :=
  a.availableOn.contains ctx.viewType && (a.scope == ctx.scope)

/-- Did the predicate evaluation return `true` (without throwing)? -/
def isOkTrue : Except String Bool → Bool
  | Except.ok true => true
  | Except.ok false => false
  | Except.error _ => false

/-- The error message of a predicate evaluation that threw, if any. -/
def errOf : Except String Bool → Option String
  | Except.error e => some e
  | Except.ok _ => none

/-- Pair each list element with its (registration) index, starting at `n`. -/
def withIdx {α : Type} (n : Nat) : List α → List (Nat × α)
  | [] => []
  | a :: as => (n, a) :: withIdx (n + 1) as

/-- Lexicographic order on (position, registration index): sorting by
it is exactly the spec's stable ascending sort by `position` with ties
broken by registration order (§4.1 step 4). -/
def lexLe {σ : Type} (p q : Nat × Action σ) : Prop :=
  p.2.position < q.2.position ∨
    (p.2.position = q.2.position ∧ p.1 ≤ q.1)

instance {σ : Type} (p q : Nat × Action σ) : Decidable (lexLe p q) := by
  unfold lexLe
  exact inferInstance

instance {σ : Type} : IsTotal (Nat × Action σ) lexLe :=
  ⟨fun p q => by unfold lexLe; omega⟩

instance {σ : Type} : IsTrans (Nat × Action σ) lexLe :=
  ⟨fun p q s hpq hqs => by unfold lexLe at hpq hqs ⊢; omega⟩

/-- Modelled from the spec: step 1 of `query` -- registered actions,
tagged with registration index, that pass the static filter. -/
def staticEligible {σ : Type} (r : Registry σ) (ctx : QueryContext σ) :
    List (Nat × Action σ) :=
  (withIdx 0 r.actions).filter (fun p => passesStaticFilter ctx p.2)

/-- Modelled from the spec: step 2 of `query` -- keep actions whose
`shouldBeRegistered` evaluates to `true`; a throwing predicate counts
as `false` (§7). -/
def queryEligible {σ : Type} (r : Registry σ) (ctx : QueryContext σ) :
    List (Nat × Action σ) :=
  (staticEligible r ctx).filter
    (fun p => isOkTrue (p.2.shouldBeRegistered ctx.ambientState))

/-- Pinned part of the eligible actions (step 3 of `query`). -/
def queryPinned {σ : Type} (r : Registry σ) (ctx : QueryContext σ) :
    List (Nat × Action σ) :=
  (queryEligible r ctx).filter (fun p => p.2.isPinned)

/-- Unpinned part of the eligible actions (step 3 of `query`). -/
def queryUnpinned {σ : Type} (r : Registry σ) (ctx : QueryContext σ) :
    List (Nat × Action σ) :=
  (queryEligible r ctx).filter (fun p => !p.2.isPinned)

/-- Errors thrown by `shouldBeRegistered` during a query, reported to
the diagnostics collaborator instead of being propagated (§7). -/
def queryErrors {σ : Type} (r : Registry σ) (ctx : QueryContext σ) :
    List String :=
  (staticEligible r ctx).filterMap
    (fun p => errOf (p.2.shouldBeRegistered ctx.ambientState))

/-- Modelled from the spec: `query(context)` (§4.1) -- the registry
implementation is not among the provided source files. Filters by view
type, scope and `shouldBeRegistered`, partitions into pinned and
unpinned, stably sorts each part ascending by `position` (ties by
registration order), concatenates pinned before unpinned, and also
yields the predicate errors reported to the diagnostics sink. -/
def query {σ : Type} (r : Registry σ) (ctx : QueryContext σ) :
    List (Action σ) × List String :=
  (((queryPinned r ctx).insertionSort lexLe).map Prod.snd ++
     ((queryUnpinned r ctx).insertionSort lexLe).map Prod.snd,
   queryErrors r ctx)

/-- State-passing wrapper around `query`: the registry is threaded
through explicitly, making it visible that a query leaves it
untouched (§4.1 "side effects: none"). -/
def queryStateful {σ : Type} (r : Registry σ) (ctx : QueryContext σ) :
    (List (Action σ) × List String) × Registry σ :=
  (query r ctx, r)

/-! Concrete fixtures used to instantiate the general theorems. -/

/-- A pinned action with `position = 5`, available on the show page. -/
def pinnedPos5Action : Action Unit :=
  { type := ActionType.Standard
    scope := ActionScope.RecordSelection
    key := "pinned-5"
    label := "Pinned five"
    shortLabel := "Pinned five"
    position := 5
    isPinned := true
    Icon := IconRef.IconHeart
    accent := none
    shouldBeRegistered := fun _ => Except.ok true
    availableOn := [ActionViewType.SHOW_PAGE]
    component := { onClick := fun u => u } }

/-- An unpinned action with `position = 1`, available on the show page. -/
def unpinnedPos1Action : Action Unit :=
  { type := ActionType.Standard
    scope := ActionScope.RecordSelection
    key := "unpinned-1"
    label := "Unpinned one"
    shortLabel := "Unpinned one"
    position := 1
    isPinned := false
    Icon := IconRef.IconTrash
    accent := none
    shouldBeRegistered := fun _ => Except.ok true
    availableOn := [ActionViewType.SHOW_PAGE]
    component := { onClick := fun u => u } }

/-- An action whose `shouldBeRegistered` predicate throws. -/
def throwingAction : Action Unit :=
  { type := ActionType.Standard
    scope := ActionScope.RecordSelection
    key := "throwing"
    label := "Throwing"
    shortLabel := "Throwing"
    position := 0
    isPinned := false
    Icon := IconRef.IconTrash
    accent := none
    shouldBeRegistered := fun _ => Except.error "predicate threw"
    availableOn := [ActionViewType.SHOW_PAGE]
    component := { onClick := fun u => u } }

/-- An action registered with an empty `availableOn` set. -/
def noViewAction : Action Unit :=
  { type := ActionType.Standard
    scope := ActionScope.RecordSelection
    key := "no-view"
    label := "No view"
    shortLabel := "No view"
    position := 3
    isPinned := true
    Icon := IconRef.IconHeart
    accent := none
    shouldBeRegistered := fun _ => Except.ok true
    availableOn := []
    component := { onClick := fun u => u } }

/-- Registry holding the unpinned position-1 action before the pinned
position-5 action. -/
def twoActionRegistry : Registry Unit :=
  { actions := [unpinnedPos1Action, pinnedPos5Action] }

/-- A query context matching the fixture actions: show-page view,
record-selection scope. -/
def matchCtx : QueryContext Unit :=
  { viewType := ActionViewType.SHOW_PAGE
    scope := ActionScope.RecordSelection
    ambientState := () }

/-- The empty registry over trivial ambient state. -/
def emptyRegistryU : Registry Unit :=
  { actions := [] }

/-! Helper lemmas about `withIdx`, the sort order, and `query`. -/

theorem withIdx_mem {α : Type} {p : Nat × α} :
    ∀ {l : List α} {n : Nat}, p ∈ withIdx n l →
      n ≤ p.1 ∧ l.get? (p.1 - n) = some p.2 := by
  intro l
  induction l with
  | nil => intro n h; cases h
  | cons a as ih =>
    intro n h
    rcases List.mem_cons.mp h with h | h
    · subst h
      exact ⟨Nat.le_refl n, by simp⟩
    · have := ih h
      refine ⟨Nat.le_of_succ_le this.1, ?_⟩
      have h1 : p.1 - n = (p.1 - (n + 1)) + 1 := by omega
      rw [h1]
      simpa using this.2

theorem mem_withIdx_of_mem {α : Type} {a : α} :
    ∀ {l : List α}, a ∈ l → ∀ n, ∃ i, (i, a) ∈ withIdx n l := by
  intro l
  induction l with
  | nil => intro h; cases h
  | cons b bs ih =>
    intro h n
    rcases List.mem_cons.mp h with h | h
    · exact ⟨n, by simp [withIdx, h]⟩
    · rcases ih h (n + 1) with ⟨i, hi⟩
      exact ⟨i, List.mem_cons_of_mem _ hi⟩

theorem withIdx_pairwise_lt {α : Type} :
    ∀ (l : List α) (n : Nat),
      (withIdx n l).Pairwise (fun p q => p.1 < q.1) := by
  intro l
  induction l with
  | nil => intro n; exact List.Pairwise.nil
  | cons a as ih =>
    intro n
    refine List.pairwise_cons.mpr ⟨?_, ih (n + 1)⟩
    intro q hq
    have := (withIdx_mem hq).1
    omega

theorem isOkTrue_iff (e : Except String Bool) :
    isOkTrue e = true ↔ e = Except.ok true := by
  cases e with
  | ok b => cases b <;> simp [isOkTrue]
  | error s => simp [isOkTrue]

theorem mem_queryEligible_iff {σ : Type} {r : Registry σ}
    {ctx : QueryContext σ} {p : Nat × Action σ} :
    p ∈ queryEligible r ctx ↔
      p ∈ withIdx 0 r.actions ∧ passesStaticFilter ctx p.2 = true ∧
        isOkTrue (p.2.shouldBeRegistered ctx.ambientState) = true := by
  simp only [queryEligible, staticEligible, List.mem_filter, and_assoc]

theorem queryEligible_sublist_withIdx {σ : Type} (r : Registry σ)
    (ctx : QueryContext σ) :
    List.Sublist (queryEligible r ctx) (withIdx 0 r.actions) :=
  List.Sublist.trans (List.filter_sublist _) (List.filter_sublist _)

theorem mem_query_iff {σ : Type} {r : Registry σ} {ctx : QueryContext σ}
    {a : Action σ} :
    a ∈ (query r ctx).1 ↔
      ∃ p, p ∈ queryEligible r ctx ∧ p.2 = a := by
  constructor
  · intro h
    rcases List.mem_append.mp h with h | h
    · rcases List.mem_map.mp h with ⟨p, hp, h2⟩
      have hp2 := (List.perm_insertionSort lexLe (queryPinned r ctx)).mem_iff.mp hp
      exact ⟨p, (List.mem_filter.mp hp2).1, h2⟩
    · rcases List.mem_map.mp h with ⟨p, hp, h2⟩
      have hp2 := (List.perm_insertionSort lexLe (queryUnpinned r ctx)).mem_iff.mp hp
      exact ⟨p, (List.mem_filter.mp hp2).1, h2⟩
  · rintro ⟨p, hp, rfl⟩
    by_cases hpin : p.2.isPinned = true
    · refine List.mem_append.mpr (Or.inl ?_)
      refine List.mem_map.mpr ⟨p, ?_, rfl⟩
      exact (List.perm_insertionSort lexLe (queryPinned r ctx)).mem_iff.mpr
        (List.mem_filter.mpr ⟨hp, hpin⟩)
    · refine List.mem_append.mpr (Or.inr ?_)
      refine List.mem_map.mpr ⟨p, ?_, rfl⟩
      refine (List.perm_insertionSort lexLe (queryUnpinned r ctx)).mem_iff.mpr
        (List.mem_filter.mpr ⟨hp, ?_⟩)
      simp [Bool.not_eq_true] at hpin
      simp [hpin]

theorem mem_query_conditions {σ : Type} {r : Registry σ}
    {ctx : QueryContext σ} {a : Action σ} (h : a ∈ (query r ctx).1) :
    a.availableOn.contains ctx.viewType = true ∧
      (a.scope == ctx.scope) = true ∧
      a.shouldBeRegistered ctx.ambientState = Except.ok true := by
  rcases mem_query_iff.mp h with ⟨p, hp, rfl⟩
  rcases mem_queryEligible_iff.mp hp with ⟨_, hf, hok⟩
  rcases (Bool.and_eq_true _ _).mp hf with ⟨h1, h2⟩
  exact ⟨h1, h2, (isOkTrue_iff _).mp hok⟩

theorem eligible_mem_query {σ : Type} {r : Registry σ}
    {ctx : QueryContext σ} {b : Action σ} (hb : b ∈ r.actions)
    (hf : passesStaticFilter ctx b = true)
    (hok : b.shouldBeRegistered ctx.ambientState = Except.ok true) :
    b ∈ (query r ctx).1 := by
  rcases mem_withIdx_of_mem hb 0 with ⟨i, hi⟩
  refine mem_query_iff.mpr ⟨(i, b), ?_, rfl⟩
  exact mem_queryEligible_iff.mpr ⟨hi, hf, by rw [(isOkTrue_iff _).mpr hok]⟩

/-! Claim theorems. -/

/-- C1: for every registry and query context, every pinned action in the
output of `query` precedes every unpinned action, regardless of position
values; in particular, for one pinned action with position 5 and one
unpinned action with position 1, `query` returns the pinned action first
and the unpinned action second. -/
theorem query_pinned_precede_unpinned :
    (∀ (σ : Type) (r : Registry σ) (ctx : QueryContext σ),
      ∃ po uo : List (Action σ),
        (query r ctx).1 = po ++ uo ∧
        (∀ a ∈ po, a.isPinned = true) ∧
        (∀ a ∈ uo, a.isPinned = false)) ∧
    (query twoActionRegistry matchCtx).1 =
      [pinnedPos5Action, unpinnedPos1Action] := by
  constructor
  · intro σ r ctx
    refine ⟨((queryPinned r ctx).insertionSort lexLe).map Prod.snd,
      ((queryUnpinned r ctx).insertionSort lexLe).map Prod.snd, rfl, ?_, ?_⟩
    · intro a ha
      rcases List.mem_map.mp ha with ⟨p, hp, rfl⟩
      have hp2 :=
        (List.perm_insertionSort lexLe (queryPinned r ctx)).mem_iff.mp hp
      exact (List.mem_filter.mp hp2).2
    · intro a ha
      rcases List.mem_map.mp ha with ⟨p, hp, rfl⟩
      have hp2 :=
        (List.perm_insertionSort lexLe (queryUnpinned r ctx)).mem_iff.mp hp
      have h3 := (List.mem_filter.mp hp2).2
      simpa using h3
  · rfl

/-- C1 witness: the concrete two-action instance of the claim. -/
theorem query_pinned_precede_unpinned_witness :
    (query twoActionRegistry matchCtx).1 =
      [pinnedPos5Action, unpinnedPos1Action] :=
  query_pinned_precede_unpinned.2

/-- C3: an action appears in the output of `query` only if its
`availableOn` contains the context view type and its
`shouldBeRegistered` predicate returned `true` on the ambient state. -/
theorem query_filters_by_view_and_predicate {σ : Type} (r : Registry σ)
    (ctx : QueryContext σ) (a : Action σ) (h : a ∈ (query r ctx).1) :
    a.availableOn.contains ctx.viewType = true ∧
      a.shouldBeRegistered ctx.ambientState = Except.ok true :=
  ⟨(mem_query_conditions h).1, (mem_query_conditions h).2.2⟩

/-- C3 witness: the pinned fixture action, which does appear in the
output for the matching context, satisfies both conditions. -/
theorem query_filters_by_view_and_predicate_witness :
    pinnedPos5Action.availableOn.contains matchCtx.viewType = true ∧
      pinnedPos5Action.shouldBeRegistered matchCtx.ambientState =
        Except.ok true :=
  query_filters_by_view_and_predicate twoActionRegistry matchCtx
    pinnedPos5Action
    (by
      rw [show (query twoActionRegistry matchCtx).1 =
        [pinnedPos5Action, unpinnedPos1Action] from rfl]
      exact List.mem_cons_self _ _)

/-- C6: `query` is deterministic and side-effect free -- querying twice
with the same context on the unchanged registry yields the identical
output, and the registry component of the state is untouched. -/
theorem queryStateful_pure_deterministic (σ : Type) (r : Registry σ)
    (ctx : QueryContext σ) :
    (queryStateful r ctx).2 = r ∧
      (queryStateful (queryStateful r ctx).2 ctx).1 =
        (queryStateful r ctx).1 :=
  ⟨rfl, rfl⟩

/-- A pinned action with `position = 2` (claim C7 fixture `A`). -/
def actionApos2 : Action Unit :=
  { type := ActionType.Standard
    scope := ActionScope.RecordSelection
    key := "action-a"
    label := "Action A"
    shortLabel := "Action A"
    position := 2
    isPinned := true
    Icon := IconRef.IconHeart
    accent := none
    shouldBeRegistered := fun _ => Except.ok true
    availableOn := [ActionViewType.SHOW_PAGE]
    component := { onClick := fun u => u } }

/-- A pinned action with `position = 4` (claim C7 fixture `B`). -/
def actionBpos4 : Action Unit :=
  { type := ActionType.Standard
    scope := ActionScope.RecordSelection
    key := "action-b"
    label := "Action B"
    shortLabel := "Action B"
    position := 4
    isPinned := true
    Icon := IconRef.IconFileExport
    accent := none
    shouldBeRegistered := fun _ => Except.ok true
    availableOn := [ActionViewType.SHOW_PAGE]
    component := { onClick := fun u => u } }

/-- A pinned action with `position = 7` (claim C7 fixture `C`). -/
def actionCpos7 : Action Unit :=
  { type := ActionType.Standard
    scope := ActionScope.RecordSelection
    key := "action-c"
    label := "Action C"
    shortLabel := "Action C"
    position := 7
    isPinned := true
    Icon := IconRef.IconTrash
    accent := none
    shouldBeRegistered := fun _ => Except.ok true
    availableOn := [ActionViewType.SHOW_PAGE]
    component := { onClick := fun u => u } }

/-- Registry holding exactly the three pinned fixture actions with
positions 2, 4 and 7. -/
def tripleRegistry : Registry Unit :=
  { actions := [actionApos2, actionBpos4, actionCpos7] }

/-- C7: for a registry holding exactly the pinned actions A (position
2), B (position 4) and C (position 7) and a context matching all three,
`query` returns the sequence [A, B, C]. -/
theorem query_three_pinned_in_position_order :
    (query tripleRegistry matchCtx).1 =
      [actionApos2, actionBpos4, actionCpos7] := rfl

/-- C2: with pairwise-distinct keys registration succeeds and every
registered key is queryable; with a duplicated key registration fails
with `DuplicateKeyError` and leaves the registry exactly unchanged. -/
theorem register_unique_total_duplicate_atomic (σ : Type)
    (r : Registry σ) (as : List (Action σ)) :
    (((r.actions ++ as).map (fun a => a.key)).Nodup →
      (register r as).error = none ∧
        ∀ a ∈ as, (register r as).registry.hasKey a.key = true) ∧
    (¬ (as.map (fun a => a.key)).Nodup →
      (register r as).error = some RegistryError.DuplicateKeyError ∧
        (register r as).registry = r) := by
  constructor
  · intro h
    have h3 : (r.actions.map (fun a => a.key) ++
        as.map (fun a => a.key)).Nodup := by
      rw [← List.map_append]; exact h
    refine ⟨by simp [register, h3], ?_⟩
    intro a ha
    simp only [register, if_pos h, Registry.hasKey]
    refine List.any_eq_true.mpr ⟨a, List.mem_append.mpr (Or.inr ha), ?_⟩
    simp
  · intro h
    have h2 : ¬ ((r.actions ++ as).map (fun a => a.key)).Nodup := by
      intro hall
      rw [List.map_append] at hall
      exact h hall.of_append_right
    have h3 : ¬ (r.actions.map (fun a => a.key) ++
        as.map (fun a => a.key)).Nodup := by
      rw [← List.map_append]; exact h2
    exact ⟨by simp [register, h3], by simp [register, h3]⟩

/-- C2 witness: registering the two distinct-key fixture actions into
the empty registry succeeds and both keys become queryable; registering
the pinned fixture twice fails with `DuplicateKeyError` and leaves the
empty registry unchanged. -/
theorem register_unique_total_duplicate_atomic_witness :
    (register emptyRegistryU
      [unpinnedPos1Action, pinnedPos5Action]).error = none ∧
    (register emptyRegistryU
      [unpinnedPos1Action, pinnedPos5Action]).registry.hasKey
        pinnedPos5Action.key = true ∧
    (register emptyRegistryU
      [pinnedPos5Action, pinnedPos5Action]).error =
        some RegistryError.DuplicateKeyError ∧
    (register emptyRegistryU
      [pinnedPos5Action, pinnedPos5Action]).registry = emptyRegistryU := by
  have h1 := (register_unique_total_duplicate_atomic Unit emptyRegistryU
    [unpinnedPos1Action, pinnedPos5Action]).1 (by decide)
  have h2 := (register_unique_total_duplicate_atomic Unit emptyRegistryU
    [pinnedPos5Action, pinnedPos5Action]).2 (by decide)
  exact ⟨h1.1,
    h1.2 pinnedPos5Action (List.mem_cons_of_mem _ (List.mem_cons_self _ _)),
    h2.1, h2.2⟩

/-- C4: a throwing `shouldBeRegistered` predicate does not propagate:
the action is excluded from the output, its error message is reported
to the diagnostics collaborator, and every remaining eligible action is
still returned. -/
theorem query_predicate_error_failsafe (σ : Type) (r : Registry σ)
    (ctx : QueryContext σ) (a : Action σ) (e : String)
    (ha : a ∈ r.actions) (hf : passesStaticFilter ctx a = true)
    (he : a.shouldBeRegistered ctx.ambientState = Except.error e) :
    a ∉ (query r ctx).1 ∧ e ∈ (query r ctx).2 ∧
      ∀ b ∈ r.actions, passesStaticFilter ctx b = true →
        b.shouldBeRegistered ctx.ambientState = Except.ok true →
        b ∈ (query r ctx).1 := by
  refine ⟨?_, ?_, ?_⟩
  · intro hmem
    have hok := (mem_query_conditions hmem).2.2
    rw [he] at hok
    exact Except.noConfusion hok
  · rcases mem_withIdx_of_mem ha 0 with ⟨i, hi⟩
    refine List.mem_filterMap.mpr ⟨(i, a), List.mem_filter.mpr ⟨hi, hf⟩, ?_⟩
    simp [errOf, he]
  · intro b hb hbf hbok
    exact eligible_mem_query hb hbf hbok

/-- Registry holding the throwing action alongside the pinned fixture. -/
def throwRegistry : Registry Unit :=
  { actions := [throwingAction, pinnedPos5Action] }

/-- C4 witness: on the registry containing the throwing fixture, the
thrower is excluded, its message is reported, and the healthy pinned
action is still returned. -/
theorem query_predicate_error_failsafe_witness :
    throwingAction ∉ (query throwRegistry matchCtx).1 ∧
    "predicate threw" ∈ (query throwRegistry matchCtx).2 ∧
    pinnedPos5Action ∈ (query throwRegistry matchCtx).1 := by
  have h := query_predicate_error_failsafe Unit throwRegistry matchCtx
    throwingAction "predicate threw" (List.mem_cons_self _ _)
    (by decide) rfl
  exact ⟨h.1, h.2.1,
    h.2.2 pinnedPos5Action
      (List.mem_cons_of_mem _ (List.mem_cons_self _ _)) (by decide) rfl⟩

/-- C8: registering an action with an empty `availableOn` set warns but
does not fail: the action stays registered yet never appears in any
query output. -/
theorem register_empty_availableOn_warns (σ : Type) (r : Registry σ)
    (as : List (Action σ)) (a : Action σ)
    (hkeys : ((r.actions ++ as).map (fun x => x.key)).Nodup)
    (ha : a ∈ as) (hempty : a.availableOn = []) :
    (register r as).error = none ∧
      a.key ∈ (register r as).warnings ∧
      a ∈ (register r as).registry.actions ∧
      ∀ ctx : QueryContext σ, a ∉ (query (register r as).registry ctx).1 := by
  have h3 : (r.actions.map (fun x => x.key) ++
      as.map (fun x => x.key)).Nodup := by
    rw [← List.map_append]; exact hkeys
  refine ⟨by simp [register, h3], ?_, ?_, ?_⟩
  · simp only [register, if_pos hkeys]
    refine List.mem_map.mpr ⟨a, List.mem_filter.mpr ⟨ha, ?_⟩, rfl⟩
    simp [hempty]
  · simp only [register, if_pos hkeys]
    exact List.mem_append.mpr (Or.inr ha)
  · intro ctx hmem
    have h1 := (mem_query_conditions hmem).1
    rw [hempty] at h1
    simp at h1

/-- C8 witness: registering the no-view fixture into the empty registry
succeeds, warns on its key, keeps it registered, and it is absent from
the matching context's query output. -/
theorem register_empty_availableOn_warns_witness :
    (register emptyRegistryU [noViewAction]).error = none ∧
    noViewAction.key ∈ (register emptyRegistryU [noViewAction]).warnings ∧
    noViewAction ∈ (register emptyRegistryU [noViewAction]).registry.actions ∧
    noViewAction ∉
      (query (register emptyRegistryU [noViewAction]).registry matchCtx).1 := by
  have h := register_empty_availableOn_warns Unit emptyRegistryU
    [noViewAction] noViewAction (by decide) (List.mem_cons_self _ _) rfl
  exact ⟨h.1, h.2.1, h.2.2.1, h.2.2.2 matchCtx⟩

/-- Strict ordering witnessing the stable sort: earlier output entries
have strictly smaller position, or equal position and strictly smaller
registration index. -/
def stableLt {σ : Type} (p q : Nat × Action σ) : Prop :=
  p.2.position < q.2.position ∨
    (p.2.position = q.2.position ∧ p.1 < q.1)

theorem queryPinned_sublist_withIdx {σ : Type} (r : Registry σ)
    (ctx : QueryContext σ) :
    List.Sublist (queryPinned r ctx) (withIdx 0 r.actions) :=
  List.Sublist.trans (List.filter_sublist _)
    (queryEligible_sublist_withIdx r ctx)

theorem queryUnpinned_sublist_withIdx {σ : Type} (r : Registry σ)
    (ctx : QueryContext σ) :
    List.Sublist (queryUnpinned r ctx) (withIdx 0 r.actions) :=
  List.Sublist.trans (List.filter_sublist _)
    (queryEligible_sublist_withIdx r ctx)

theorem sort_pairwise_stableLt {σ : Type} {l : List (Nat × Action σ)}
    (hne : l.Pairwise (fun p q => p.1 ≠ q.1)) :
    (l.insertionSort lexLe).Pairwise stableLt := by
  have hsorted : (l.insertionSort lexLe).Pairwise lexLe :=
    List.sorted_insertionSort lexLe l
  have hne2 : (l.insertionSort lexLe).Pairwise (fun p q => p.1 ≠ q.1) :=
    ((List.perm_insertionSort lexLe l).pairwise_iff
      (fun hab => Ne.symm hab)).mpr hne
  refine (hsorted.and hne2).imp ?_
  intro p q h
  rcases h with ⟨hle, hneq⟩
  unfold lexLe at hle
  unfold stableLt
  omega

/-- C5: within each of the pinned and unpinned partitions of the query
output, actions are sorted ascending by position, with ties in the
order of original registration (stable sort). The partitions are lists
of (registration index, action) pairs drawn from the registry. -/
theorem query_sorted_stable (σ : Type) (r : Registry σ)
    (ctx : QueryContext σ) :
    ∃ P U : List (Nat × Action σ),
      (query r ctx).1 = P.map Prod.snd ++ U.map Prod.snd ∧
      (∀ p ∈ P ++ U, r.actions.get? p.1 = some p.2) ∧
      (∀ p ∈ P, p.2.isPinned = true) ∧
      (∀ p ∈ U, p.2.isPinned = false) ∧
      P.Pairwise stableLt ∧ U.Pairwise stableLt := by
  refine ⟨(queryPinned r ctx).insertionSort lexLe,
    (queryUnpinned r ctx).insertionSort lexLe, rfl, ?_, ?_, ?_, ?_, ?_⟩
  · intro p hp
    have hp2 : p ∈ withIdx 0 r.actions := by
      rcases List.mem_append.mp hp with h | h
      · exact (queryPinned_sublist_withIdx r ctx).mem
          ((List.perm_insertionSort lexLe _).mem_iff.mp h)
      · exact (queryUnpinned_sublist_withIdx r ctx).mem
          ((List.perm_insertionSort lexLe _).mem_iff.mp h)
    have h3 := (withIdx_mem hp2).2
    simpa using h3
  · intro p hp
    exact (List.mem_filter.mp
      ((List.perm_insertionSort lexLe _).mem_iff.mp hp)).2
  · intro p hp
    have h3 := (List.mem_filter.mp
      ((List.perm_insertionSort lexLe _).mem_iff.mp hp)).2
    simpa using h3
  · refine sort_pairwise_stableLt ?_
    exact ((withIdx_pairwise_lt r.actions 0).sublist
      (queryPinned_sublist_withIdx r ctx)).imp (fun h => Nat.ne_of_lt h)
  · refine sort_pairwise_stableLt ?_
    exact ((withIdx_pairwise_lt r.actions 0).sublist
      (queryUnpinned_sublist_withIdx r ctx)).imp (fun h => Nat.ne_of_lt h)

/-- C9: the list built by `createMockActionMenuActions` satisfies the
registry's registration invariants for every choice of the three
callbacks: exactly three actions, pairwise-distinct keys, non-empty
`availableOn` containing both view types, type `Standard`, scope
`RecordSelection`, and constantly-true `shouldBeRegistered`. -/
theorem createMockActionMenuActions_invariants (σ : Type)
    (deleteMock addToFavoritesMock exportMock : Unit → Unit) :
    (@createMockActionMenuActions σ deleteMock addToFavoritesMock
        exportMock).length = 3 ∧
    ((@createMockActionMenuActions σ deleteMock addToFavoritesMock
        exportMock).map (fun a => a.key)).Nodup ∧
    ∀ a ∈ @createMockActionMenuActions σ deleteMock addToFavoritesMock
        exportMock,
      a.availableOn ≠ [] ∧
      ActionViewType.INDEX_PAGE_SINGLE_RECORD_SELECTION ∈ a.availableOn ∧
      ActionViewType.SHOW_PAGE ∈ a.availableOn ∧
      a.type = ActionType.Standard ∧
      a.scope = ActionScope.RecordSelection ∧
      ∀ s : σ, a.shouldBeRegistered s = Except.ok true := by
  refine ⟨rfl, ?_, ?_⟩
  · have hkeys : (@createMockActionMenuActions σ deleteMock
        addToFavoritesMock exportMock).map (fun a => a.key) =
        [SingleRecordActionKeys.ADD_TO_FAVORITES,
         SingleRecordActionKeys.EXPORT,
         SingleRecordActionKeys.DELETE] := rfl
    rw [hkeys]
    decide
  · intro a ha
    simp only [createMockActionMenuActions, List.mem_cons,
      List.not_mem_nil, or_false] at ha
    rcases ha with rfl | rfl | rfl
    · exact ⟨List.cons_ne_nil _ _, List.mem_cons_self _ _,
        List.mem_cons_of_mem _ (List.mem_cons_self _ _), rfl, rfl,
        fun s => rfl⟩
    · exact ⟨List.cons_ne_nil _ _,
        List.mem_cons_of_mem _ (List.mem_cons_self _ _),
        List.mem_cons_self _ _, rfl, rfl, fun s => rfl⟩
    · exact ⟨List.cons_ne_nil _ _, List.mem_cons_self _ _,
        List.mem_cons_of_mem _ (List.mem_cons_self _ _), rfl, rfl,
        fun s => rfl⟩

/-- C9 witness: at trivial ambient state and identity callbacks, the
mock list has length three, distinct keys, and its first action is of
type `Standard`. -/
theorem createMockActionMenuActions_invariants_witness :
    (@createMockActionMenuActions Unit id id id).length = 3 ∧
    ((@createMockActionMenuActions Unit id id id).get
        ⟨0, by decide⟩).type = ActionType.Standard := by
  have h := createMockActionMenuActions_invariants Unit id id id
  refine ⟨h.1, ?_⟩
  have hm := List.get_mem (@createMockActionMenuActions Unit id id id)
    0 (by decide)
  exact (h.2.2 _ hm).2.2.2.1

/-! Embedding of `CommandMenuItem.tsx`. -/

/-- Opaque React node handle (the `RightComponent` prop's type). -/
structure ReactNode

/-- Source embedding of `isNonEmptyString` from `@sniptt/guards`: the
value is a string and is non-empty; an absent optional prop is not a
string. -/
def isNonEmptyString : Option String → Bool
  | some s => !s.isEmpty
  | none => false

/-- Props of the `CommandMenuItem` component (`CommandMenuItemProps`
in the source). -/
structure CommandMenuItemProps where
  label : String
  description : Option String
  «to» : Option String
  id : String
  onClick : Option (Unit → Unit)
  Icon : Option IconRef
  hotKeys : List String
  shouldCloseCommandMenuOnClick : Option Bool
  RightComponent : Option ReactNode

/-- Argument record passed to `onItemClick` inside the rendered item's
click handler. -/
structure OnItemClickArgs where
  onClick : Option (Unit → Unit)
  «to» : Option String

/-- Props handed to the rendered `MenuItemCommand` element. -/
structure MenuItemCommandProps where
  LeftIcon : Option IconRef
  text : String
  description : Option String
  hotKeys : List String
  onClick : Unit → Unit
  isSelected : Bool
  RightComponent : Option ReactNode

/-- Source embedding of the `CommandMenuItem` component body from
`src/packages/twenty-front/src/modules/command-menu/components/CommandMenuItem.tsx`:
reassigns `Icon` to `IconArrowUpRight` when `to` is a non-empty string
and no `Icon` was given, then renders a `MenuItemCommand`. The
`useCommandMenuOnItemClick` hook result and the recoil selector value
are external collaborators passed in as `onItemClick` and
`isSelectedItemId`. -/
def CommandMenuItem (props : CommandMenuItemProps)
    (onItemClick : OnItemClickArgs → Unit) (isSelectedItemId : Bool) :
    MenuItemCommandProps :=
  let icon := if isNonEmptyString props.«to» && props.Icon.isNone then
    some IconRef.IconArrowUpRight
  else
    props.Icon
  { LeftIcon := icon
    text := props.label
    description := props.description
    hotKeys := props.hotKeys
    onClick := fun _ => onItemClick ⟨props.onClick, props.«to»⟩
    isSelected := isSelectedItemId
    RightComponent := props.RightComponent }

/-- C10: `CommandMenuItem` defaults the rendered left icon to
`IconArrowUpRight` exactly when `to` is a non-empty string and no
`Icon` prop is given; otherwise the `Icon` prop passes through
unchanged. -/
theorem commandMenuItem_left_icon_default (props : CommandMenuItemProps)
    (onItemClick : OnItemClickArgs → Unit) (isSelectedItemId : Bool) :
    (isNonEmptyString props.«to» = true → props.Icon = none →
      (CommandMenuItem props onItemClick isSelectedItemId).LeftIcon =
        some IconRef.IconArrowUpRight) ∧
    ((props.Icon ≠ none ∨ isNonEmptyString props.«to» = false) →
      (CommandMenuItem props onItemClick isSelectedItemId).LeftIcon =
        props.Icon) := by
  constructor
  · intro h1 h2
    simp [CommandMenuItem, h1, h2]
  · intro h
    rcases h with h | h
    · have h2 : props.Icon.isNone = false := by
        rcases hI : props.Icon with _ | i
        · exact absurd hI h
        · rfl
      simp [CommandMenuItem, h2]
    · simp [CommandMenuItem, h]

/-- Concrete props with a link target and no icon. -/
def linkProps : CommandMenuItemProps :=
  { label := "Open settings"
    description := none
    «to» := some "/settings"
    id := "open-settings"
    onClick := none
    Icon := none
    hotKeys := []
    shouldCloseCommandMenuOnClick := none
    RightComponent := none }

/-- Concrete props with both a link target and an explicit icon. -/
def iconProps : CommandMenuItemProps :=
  { label := "Favorites"
    description := none
    «to» := some "/favorites"
    id := "favorites"
    onClick := none
    Icon := some IconRef.IconHeart
    hotKeys := []
    shouldCloseCommandMenuOnClick := none
    RightComponent := none }

/-- A do-nothing `onItemClick` collaborator. -/
def noopItemClick : OnItemClickArgs → Unit := fun _ => ()

/-- C10 witness: with a link and no icon the arrow icon is rendered;
with an explicit icon that icon passes through. -/
theorem commandMenuItem_left_icon_default_witness :
    (CommandMenuItem linkProps noopItemClick false).LeftIcon =
      some IconRef.IconArrowUpRight ∧
    (CommandMenuItem iconProps noopItemClick false).LeftIcon =
      some IconRef.IconHeart := by
  refine ⟨(commandMenuItem_left_icon_default linkProps noopItemClick
    false).1 (by decide) rfl, ?_⟩
  have h := (commandMenuItem_left_icon_default iconProps noopItemClick
    false).2 (Or.inl (by decide))
  exact h.trans rfl

end Twenty
